import Mathlib

set_option maxRecDepth 4000

/-!
Shallow embedding of the scoring/reputation engine of the subsocial-node
repository (pallets/scores/src/lib.rs), together with theorems settling the
frozen claims about it.

Storage (the five persisted maps) is modelled as an explicit `State` record
threaded through every operation.  Storage writes take effect at the point
where the source executes the corresponding `insert` / `remove`; an error
aborts the remaining steps and the error value carries the state reached at
the failure point.  Machine integers are modelled as `Nat` / `Int` with the
truncations the source's casts imply made explicit.

The bounded mutual recursion of the source (opposite-action reversal inside
`change_post_score` / `change_comment_score`, comment-to-root forwarding
from the comment path into the post path) is modelled with an explicit fuel
parameter; the real recursion depth is at most 2, so the public entry point
runs with fuel 2.  Each recursive function is split into a non-recursive
`core` body (a statement-by-statement rendering of the Rust function, with
the recursive occurrences abstracted) and a fueled wrapper tying the knot.
-/

namespace Subsocial

/-- Account identifiers (the runtime's `T::AccountId`), abstracted to `Nat`. -/
abbrev AccountId := Nat

/-- Post identifiers (`PostId = u64`). -/
abbrev PostId := Nat

/-- Space identifiers (`SpaceId = u64`). -/
abbrev SpaceId := Nat

/-- The `ScoringAction` enum of pallets/scores/src/lib.rs. -/
inductive ScoringAction where
  | UpvotePost
  | DownvotePost
  | SharePost
  | CreateComment
  | UpvoteComment
  | DownvoteComment
  | ShareComment
  | FollowSpace
  | FollowAccount
deriving DecidableEq, Repr

/-- Errors of the scores pallet (`decl_error!` block), extended with the
errors surfaced by the external pallets it calls (`PostNotFound` from
pallet_posts' `ensure_post_exists` / `get_root_post`, `SpaceNotFound` from
pallet_spaces' `require_space`) and with `FuelExhausted`, marking the
explicit recursion-depth bound of the fueled embedding; `FuelExhausted` is
unreachable from the fuel-2 entry point. -/
inductive ScoresError where
  | ReputationDiffNotFound
  | PostIsAComment
  | PostIsNotAComment
  | SpaceScoreOverflow
  | SpaceScoreUnderflow
  | PostScoreOverflow
  | PostScoreUnderflow
  | CommentScoreOverflow
  | CommentScoreUnderflow
  | ReputationOverflow
  | ReputationUnderflow
  | PostNotFound
  | SpaceNotFound
  | FuelExhausted
deriving DecidableEq, Repr

/-- Modelled from the spec: a social account's profile record
(pallet_profiles, not under src/).  Only the field the scoring engine
touches is modelled: the unsigned 32-bit reputation value. -/
structure SocialAccount where
  reputation : Nat
deriving DecidableEq, Repr

/-- Modelled from the spec: the content item of pallet_posts (not under
src/).  Per the spec's data model a post carries an owner account
(`created.account` in the source), a signed 32-bit score, an optional
containing-space id, and, for comments only, the id of the root post; the
comment flag is `comment_root.isSome`. -/
structure Post where
  id : PostId
  created_account : AccountId
  score : Int
  space_id : Option SpaceId
  comment_root : Option PostId
deriving DecidableEq, Repr

/-- Modelled from the spec: `Post::is_comment` of pallet_posts — true
exactly when the post's extension is a comment. -/
def Post.is_comment (p : Post) : Bool :=
  p.comment_root.isSome

/-- Modelled from the spec: the space record of pallet_spaces (not under
src/); only its signed 32-bit score is touched by the scoring engine. -/
structure Space where
  score : Int
deriving DecidableEq, Repr

/-- The persisted state: the two storage maps of the scores pallet
(`PostScoreByAccount`, `AccountReputationDiffByAccount`) plus the three
collaborator maps it reads and writes (`SocialAccountById`, `PostById`,
`SpaceById`). -/
structure State where
  socialAccounts : AccountId → Option SocialAccount
  posts : PostId → Option Post
  spaces : SpaceId → Option Space
  postScore : AccountId × PostId × ScoringAction → Option Int
  repDiff : AccountId × AccountId × ScoringAction → Option Int

/-- Point update of a finite map represented as a function. -/
def upd {α β : Type} [DecidableEq α] (f : α → Option β) (k : α) (v : Option β) :
    α → Option β :=
  fun x => if x = k then v else f x

def putSA (s : State) (a : AccountId) (v : SocialAccount) : State :=
  { s with socialAccounts := upd s.socialAccounts a (some v) }

def putPost (s : State) (i : PostId) (p : Post) : State :=
  { s with posts := upd s.posts i (some p) }

def putSpace (s : State) (i : SpaceId) (sp : Space) : State :=
  { s with spaces := upd s.spaces i (some sp) }

def putPostScore (s : State) (k : AccountId × PostId × ScoringAction) (v : Int) : State :=
  { s with postScore := upd s.postScore k (some v) }

def removePostScore (s : State) (k : AccountId × PostId × ScoringAction) : State :=
  { s with postScore := upd s.postScore k none }

def putRepDiff (s : State) (k : AccountId × AccountId × ScoringAction) (v : Int) : State :=
  { s with repDiff := upd s.repDiff k (some v) }

def removeRepDiff (s : State) (k : AccountId × AccountId × ScoringAction) : State :=
  { s with repDiff := upd s.repDiff k none }

/-- Modelled from the spec: `Profiles::get_or_new_social_account` of
pallet_profiles (not under src/) — returns the stored profile, or a fresh
one with reputation 1 if absent.  It does not itself write storage. -/
def get_or_new_social_account (s : State) (a : AccountId) : SocialAccount :=
  (s.socialAccounts a).getD ⟨1⟩

/-- The effective reputation of an account: its stored value, or the
default 1 a fresh profile would carry. -/
def reputation_of (s : State) (a : AccountId) : Nat :=
  (get_or_new_social_account s a).reputation

/-- The action weights supplied by the runtime configuration (the nine
`Get<i16>` associated constants of the pallet's `Trait`). -/
structure Config where
  UpvotePostActionWeight : Int
  DownvotePostActionWeight : Int
  SharePostActionWeight : Int
  CreateCommentActionWeight : Int
  UpvoteCommentActionWeight : Int
  DownvoteCommentActionWeight : Int
  ShareCommentActionWeight : Int
  FollowSpaceActionWeight : Int
  FollowAccountActionWeight : Int

/-- `weight_of_scoring_action` of the source. -/
def weight_of_scoring_action (cfg : Config) (action : ScoringAction) : Int :=
  match action with
  | .UpvotePost => cfg.UpvotePostActionWeight
  | .DownvotePost => cfg.DownvotePostActionWeight
  | .SharePost => cfg.SharePostActionWeight
  | .CreateComment => cfg.CreateCommentActionWeight
  | .UpvoteComment => cfg.UpvoteCommentActionWeight
  | .DownvoteComment => cfg.DownvoteCommentActionWeight
  | .ShareComment => cfg.ShareCommentActionWeight
  | .FollowSpace => cfg.FollowSpaceActionWeight
  | .FollowAccount => cfg.FollowAccountActionWeight

/-- Fuelled halving loop computing the floor of the base-2 logarithm; the
fuel makes it structurally recursive, so it evaluates by kernel
reduction.  `nat_log2_eq` below shows it agrees with `Nat.log2`. -/
def log2_aux : Nat → Nat → Nat
  | 0, _ => 0
  | fuel + 1, n => if n ≤ 1 then 0 else log2_aux fuel (n / 2) + 1

/-- The floor of the base-2 logarithm (0 at 0 and 1). -/
def nat_log2 (n : Nat) : Nat := log2_aux n n

/-- Modelled from the spec: `pallet_utils::log_2` (not under src/) —
`None` for input 0, otherwise the floor of the base-2 logarithm. -/
def log_2 (n : Nat) : Option Nat :=
  if n = 0 then none else some (nat_log2 n)

/-- `smooth_reputation` of the source.  The u64 intermediate arithmetic is
exact for u32 inputs; the `as u32` and `as u8` casts are modelled as
truncations modulo 2^32 and 2^8. -/
def smooth_reputation (reputation : Nat) : Nat :=
  match log_2 reputation with
  | none => 1
  | some r =>
    let d := (reputation - 2 ^ r) * 100 / 2 ^ r
    (((r + 1) * 100 + d % 2 ^ 32) % 2 ^ 32 / 100) % 2 ^ 8

/-- Wrap an integer into the i16 range, the release-mode semantics of the
source's `as i16` cast and of i16 multiplication overflow. -/
def i16_wrap (x : Int) : Int :=
  (x + 2 ^ 15) % 2 ^ 16 - 2 ^ 15

/-- The source's `-reputation_diff` on an i16 value (wrapping negation). -/
def i16_neg (x : Int) : Int :=
  i16_wrap (-x)

/-- The Rust cast `i16 as u32`: the value modulo 2^32, so a negative i16 is
sign-extended to a number close to 2^32. -/
def u32_of_i16 (x : Int) : Nat :=
  (x % 2 ^ 32).toNat

/-- u32 `checked_add`. -/
def checked_add_u32 (a b : Nat) : Option Nat :=
  if a + b < 2 ^ 32 then some (a + b) else none

/-- u32 `checked_sub`. -/
def checked_sub_u32 (a b : Nat) : Option Nat :=
  if b ≤ a then some (a - b) else none

/-- i32 `checked_add` (operands in range; `none` iff the exact sum leaves
the i32 range). -/
def checked_add_i32 (a b : Int) : Option Int :=
  if -(2 ^ 31) ≤ a + b ∧ a + b < 2 ^ 31 then some (a + b) else none

/-- i32 `checked_sub`. -/
def checked_sub_i32 (a b : Int) : Option Int :=
  if -(2 ^ 31) ≤ a - b ∧ a - b < 2 ^ 31 then some (a - b) else none

/-- `score_diff_for_action` of the source:
`smooth_reputation(reputation) as i16 * weight_of_scoring_action(action)`,
an i16 product (wrapping on overflow). -/
def score_diff_for_action (cfg : Config) (reputation : Nat) (action : ScoringAction) : Int :=
  i16_wrap ((smooth_reputation reputation : Int) * weight_of_scoring_action cfg action)

/-- Results of the state-mutating operations: on success the final state
(plus, for the post/comment operations, the in-memory mutated post the
source holds by `&mut` reference); on failure the error together with the
state reached when the failing step was hit. -/
abbrev LedgerResult := Except (ScoresError × State) State

abbrev ScoreResult := Except (ScoresError × State) (Post × State)

/-- `change_social_account_reputation` of the source (lines 277-314):
load-or-create the target's profile; clamp to the floor (reputation 1,
delta zeroed) when `reputation + score_diff <= 1` in i64 arithmetic;
otherwise checked u32 arithmetic — note that the source subtracts
`score_diff as u32`, the sign-extended cast of the negative i16; then
toggle the diff record for (scorer, account, action) by presence, storing
the (possibly zeroed) delta on insert; finally persist the profile.  The
deposited event is not modelled. -/
def change_social_account_reputation (account scorer : AccountId) (score_diff : Int)
    (action : ScoringAction) (s : State) : LedgerResult :=
  let social_account := get_or_new_social_account s account
  let rep0 : Nat :=
    if (social_account.reputation : Int) + score_diff ≤ 1 then 1
    else social_account.reputation
  let d : Int :=
    if (social_account.reputation : Int) + score_diff ≤ 1 then 0
    else score_diff
  let step : Except ScoresError Nat :=
    if 0 < d then
      match checked_add_u32 rep0 (u32_of_i16 d) with
      | none => .error .ReputationOverflow
      | some r => .ok r
    else if d < 0 then
      match checked_sub_u32 rep0 (u32_of_i16 d) with
      | none => .error .ReputationUnderflow
      | some r => .ok r
    else .ok rep0
  match step with
  | .error e => .error (e, s)
  | .ok newRep =>
    let s1 :=
      if (s.repDiff (scorer, account, action)).isSome then
        removeRepDiff s (scorer, account, action)
      else
        putRepDiff s (scorer, account, action) d
    .ok (putSA s1 account ⟨newRep⟩)

/-- The body of `change_post_score` of the source (lines 163-220), with the
recursive occurrence (the opposite-action reversal) abstracted as
`recurse`.  Mirrors the source statement by statement, including: the
social-account insert before any fallible step; the `ensure_post_exists`
re-check; the silent skip when `space_id` is `None`; the self-action skip;
and — in the fresh-application branch — the fact that the outer call keeps
using the `space` value it loaded before the nested reversal ran, so its
final space write clobbers the nested call's space update. -/
def change_post_score_core (cfg : Config)
    (recurse : AccountId → Post → ScoringAction → State → ScoreResult)
    (account : AccountId) (post0 : Post) (action : ScoringAction) (s0 : State) : ScoreResult :=
  if post0.is_comment then .error (.PostIsAComment, s0) else
  let social_account := get_or_new_social_account s0 account
  let s1 := putSA s0 account social_account
  let post_id := post0.id
  match s1.posts post_id with
  | none => .error (.PostNotFound, s1)
  | some _ =>
    match post0.space_id with
    | none => .ok (post0, s1)
    | some post_space_id =>
      match s1.spaces post_space_id with
      | none => .error (.SpaceNotFound, s1)
      | some space =>
        if post0.created_account = account then .ok (post0, s1)
        else
          match s1.postScore (account, post_id, action) with
          | some score_diff =>
            match s1.repDiff (account, post0.created_account, action) with
            | none => .error (.ReputationDiffNotFound, s1)
            | some reputation_diff =>
              match checked_sub_i32 post0.score score_diff with
              | none => .error (.PostScoreUnderflow, s1)
              | some ps =>
                let post1 := { post0 with score := ps }
                match checked_sub_i32 space.score score_diff with
                | none => .error (.SpaceScoreUnderflow, s1)
                | some ss =>
                  let space1 := { space with score := ss }
                  match change_social_account_reputation post1.created_account account
                      (i16_neg reputation_diff) action s1 with
                  | .error e => .error e
                  | .ok s2 =>
                    let s3 := removePostScore s2 (account, post_id, action)
                    let s4 := putPost s3 post_id post1
                    let s5 := putSpace s4 post_space_id space1
                    .ok (post1, s5)
          | none =>
            let pre : ScoreResult :=
              match action with
              | .UpvotePost =>
                if (s1.postScore (account, post_id, .DownvotePost)).isSome then
                  recurse account post0 .DownvotePost s1
                else .ok (post0, s1)
              | .DownvotePost =>
                if (s1.postScore (account, post_id, .UpvotePost)).isSome then
                  recurse account post0 .UpvotePost s1
                else .ok (post0, s1)
              | _ => .ok (post0, s1)
            match pre with
            | .error e => .error e
            | .ok (post1, s2) =>
              let score_diff := score_diff_for_action cfg social_account.reputation action
              match checked_add_i32 post1.score score_diff with
              | none => .error (.PostScoreOverflow, s2)
              | some ps =>
                let post2 := { post1 with score := ps }
                match checked_add_i32 space.score score_diff with
                | none => .error (.SpaceScoreOverflow, s2)
                | some ss =>
                  let space1 := { space with score := ss }
                  match change_social_account_reputation post2.created_account account
                      score_diff action s2 with
                  | .error e => .error e
                  | .ok s3 =>
                    let s4 := putPostScore s3 (account, post_id, action) score_diff
                    let s5 := putPost s4 post_id post2
                    let s6 := putSpace s5 post_space_id space1
                    .ok (post2, s6)

/-- Fueled `change_post_score`. -/
def change_post_score (cfg : Config) :
    Nat → AccountId → Post → ScoringAction → State → ScoreResult
  | 0 => fun _ _ _ s => .error (.FuelExhausted, s)
  | fuel + 1 => change_post_score_core cfg (change_post_score cfg fuel)

/-- Modelled from the spec: `Post::get_root_post` of pallet_posts (not
under src/) — resolves a comment's root post from the store, failing when
there is no resolvable root. -/
def get_root_post (s : State) (p : Post) : Except ScoresError Post :=
  match p.comment_root with
  | none => .error .PostNotFound
  | some rid =>
    match s.posts rid with
    | none => .error .PostNotFound
    | some rp => .ok rp

/-- The body of `change_comment_score` of the source (lines 222-275), with
the recursive occurrences abstracted: `recurse_comment` for the
opposite-action reversal, `recurse_post` for the comment-to-root-post
forwarding of the CreateComment branch.  The comment path touches no
space. -/
def change_comment_score_core (cfg : Config)
    (recurse_comment recurse_post : AccountId → Post → ScoringAction → State → ScoreResult)
    (account : AccountId) (comment0 : Post) (action : ScoringAction) (s0 : State) : ScoreResult :=
  if !comment0.is_comment then .error (.PostIsNotAComment, s0) else
  let social_account := get_or_new_social_account s0 account
  let s1 := putSA s0 account social_account
  let comment_id := comment0.id
  match s1.posts comment_id with
  | none => .error (.PostNotFound, s1)
  | some _ =>
    if comment0.created_account = account then .ok (comment0, s1)
    else
      match s1.postScore (account, comment_id, action) with
      | some score_diff =>
        match s1.repDiff (account, comment0.created_account, action) with
        | none => .error (.ReputationDiffNotFound, s1)
        | some reputation_diff =>
          match checked_sub_i32 comment0.score score_diff with
          | none => .error (.CommentScoreUnderflow, s1)
          | some cs =>
            let comment1 := { comment0 with score := cs }
            match change_social_account_reputation comment1.created_account account
                (i16_neg reputation_diff) action s1 with
            | .error e => .error e
            | .ok s2 =>
              let s3 := removePostScore s2 (account, comment_id, action)
              let s4 := putPost s3 comment_id comment1
              .ok (comment1, s4)
      | none =>
        let pre : ScoreResult :=
          match action with
          | .UpvoteComment =>
            if (s1.postScore (account, comment_id, .DownvoteComment)).isSome then
              recurse_comment account comment0 .DownvoteComment s1
            else .ok (comment0, s1)
          | .DownvoteComment =>
            if (s1.postScore (account, comment_id, .UpvoteComment)).isSome then
              recurse_comment account comment0 .UpvoteComment s1
            else .ok (comment0, s1)
          | .CreateComment =>
            match get_root_post s1 comment0 with
            | .error e => .error (e, s1)
            | .ok root_post =>
              match recurse_post account root_post action s1 with
              | .error e => .error e
              | .ok (_, s2) => .ok (comment0, s2)
          | _ => .ok (comment0, s1)
        match pre with
        | .error e => .error e
        | .ok (comment1, s2) =>
          let score_diff := score_diff_for_action cfg social_account.reputation action
          match checked_add_i32 comment1.score score_diff with
          | none => .error (.CommentScoreOverflow, s2)
          | some cs =>
            let comment2 := { comment1 with score := cs }
            match change_social_account_reputation comment2.created_account account
                score_diff action s2 with
            | .error e => .error e
            | .ok s3 =>
              let s4 := putPostScore s3 (account, comment_id, action) score_diff
              let s5 := putPost s4 comment_id comment2
              .ok (comment2, s5)

/-- Fueled `change_comment_score`. -/
def change_comment_score (cfg : Config) :
    Nat → AccountId → Post → ScoringAction → State → ScoreResult
  | 0 => fun _ _ _ s => .error (.FuelExhausted, s)
  | fuel + 1 =>
    change_comment_score_core cfg (change_comment_score cfg fuel) (change_post_score cfg fuel)

/-- `change_post_score_by_extension` of the source (lines 149-161): route
on the comment flag.  Entry fuel 2 covers the maximal real recursion depth
(one nested opposite-action reversal or one comment-to-root forwarding). -/
def change_post_score_by_extension (cfg : Config) (account : AccountId) (post : Post)
    (action : ScoringAction) (s : State) : ScoreResult :=
  if post.is_comment then change_comment_score cfg 2 account post action s
  else change_post_score cfg 2 account post action s

/-! Observation helpers used to state concrete scenarios. -/

/-- The persisted state a score operation reached (final state on success,
state at the failure point on error). -/
def finalState : ScoreResult → State
  | .ok (_, s) => s
  | .error (_, s) => s

/-- The error a score operation returned, if any. -/
def resultError : ScoreResult → Option ScoresError
  | .ok _ => none
  | .error (e, _) => some e

/-- The in-memory post a score operation returned on success. -/
def resultPost : ScoreResult → Option Post
  | .ok (p, _) => some p
  | .error _ => none

/-- The persisted state a ledger call reached. -/
def ledgerFinal : LedgerResult → State
  | .ok s => s
  | .error (_, s) => s

/-- The error a ledger call returned, if any. -/
def ledgerError : LedgerResult → Option ScoresError
  | .ok _ => none
  | .error (e, _) => some e

/-- The stored score of a post, read from the state. -/
def post_score_in (s : State) (i : PostId) : Option Int :=
  (s.posts i).map Post.score

/-- The stored score of a space, read from the state. -/
def space_score_in (s : State) (i : SpaceId) : Option Int :=
  (s.spaces i).map Space.score

/-- Apply the same action by the same actor twice in a row, threading the
mutated in-memory post and the resulting state from the first application
into the second, as the source's caller would after reloading the post.
An error in the first application is returned as is. -/
def apply_twice (cfg : Config) (x : AccountId) (p : Post) (a : ScoringAction)
    (s : State) : ScoreResult :=
  match change_post_score_by_extension cfg x p a s with
  | .error e => .error e
  | .ok (p1, s1) => change_post_score_by_extension cfg x p1 a s1

/-! Concrete scenario data.  The sample configuration uses the spec's
concrete-scenario upvote-post weight 5; the other weights are small values
within the documented bounds (downvotes negative). -/

def sampleCfg : Config :=
  ⟨5, -3, 1, 3, 2, -2, 1, 1, 1⟩

def emptyState : State :=
  ⟨fun _ => none, fun _ => none, fun _ => none, fun _ => none, fun _ => none⟩

/-- C1 scenario: the target account 1 holds reputation 10. -/
def c1_state : State := putSA emptyState 1 ⟨10⟩

/-- C5 scenario: the target account 1 holds reputation 2^32 - 5 (a stored
reputation not below 1, as the invariant requires at the start). -/
def c5_state : State := putSA emptyState 1 ⟨2 ^ 32 - 5⟩

/-- A non-comment post, id 7, owner account 1, score 0, inside space 4. -/
def post7 : Post := ⟨7, 1, 0, some 4, none⟩

/-- Base content state for the post scenarios: post 7 stored, space 4
stored with score 0. -/
def base_state : State := putSpace (putPost emptyState 7 post7) 4 ⟨0⟩

/-- C2 scenario: as `base_state` but the owner (account 1) holds
reputation 10. -/
def c2_state : State := putSA base_state 1 ⟨10⟩

/-- Post 7 with score 5 (the state it has while actor 2's upvote is
outstanding). -/
def post7s5 : Post := ⟨7, 1, 5, some 4, none⟩

/-- C4 scenario: actor 2 holds an outstanding upvote (+5) on post 7 —
post score 5, space score 5, owner reputation 6, score record and diff
record both 5 — exactly the state the spec's concrete scenario leaves
after the first upvote. -/
def c4_state : State :=
  putRepDiff
    (putPostScore
      (putSA (putSpace (putPost emptyState 7 post7s5) 4 ⟨5⟩) 1 ⟨6⟩)
      (2, 7, .UpvotePost) 5)
    (2, 1, .UpvotePost) 5

/-- The C4 clean-state comparison point: the same situation with the
upvote absent — post score 0, space score 0, owner reputation 1, no
records (what reversing the upvote leaves, and what the state would be had
the upvote never happened). -/
def c4_clean_state : State := putSA base_state 1 ⟨1⟩

/-- Post 7 with score -2^31 + 5 (near the i32 floor) while actor 2's
upvote (+5) is outstanding. -/
def post7min : Post := ⟨7, 1, -(2 ^ 31) + 5, some 4, none⟩

/-- C3 scenario: like `c4_state` but the post score sits at -2^31 + 5, so
that after the nested upvote reversal the outer downvote's score addition
underflows i32. -/
def c3_state : State :=
  putRepDiff
    (putPostScore
      (putSA (putSpace (putPost emptyState 7 post7min) 4 ⟨5⟩) 1 ⟨6⟩)
      (2, 7, .UpvotePost) 5)
    (2, 1, .UpvotePost) 5

/-- A ledger state for the reputation-overflow scenario: account 1 holds
reputation u32::MAX. -/
def c3_ledger_state : State := putSA emptyState 1 ⟨2 ^ 32 - 1⟩

/-- A spaceless non-comment root post, id 7, owner account 1, score 0. -/
def rootNoSpace : Post := ⟨7, 1, 0, none, none⟩

/-- A comment, id 9, owner account 3, score 0, root post 7. -/
def comment9 : Post := ⟨9, 3, 0, none, some 7⟩

/-- C6 scenario: comment 9 under the spaceless root post 7. -/
def c6_state : State := putPost (putPost emptyState 7 rootNoSpace) 9 comment9

/-- C10 scenario: the spaceless post 7 stored alone. -/
def c10_state : State := putPost emptyState 7 rootNoSpace

/-- A non-comment root post with a space: id 7, owner 1, score 0,
space 4. -/
def rootWithSpace : Post := ⟨7, 1, 0, some 4, none⟩

/-- C6 witness scenario: comment 9 (owner 3) under root post 7 (owner 1)
which lives in space 4. -/
def c6_good_state : State :=
  putSpace (putPost (putPost emptyState 7 rootWithSpace) 9 comment9) 4 ⟨0⟩

/-- The smoothing function exactly as the claim's sentence words it:
1 when reputation is 0, otherwise ((r+1)*100 + d) / 100 truncated to u8,
with r = floor(log2 reputation) and d = (reputation - 2^r) * 100 / 2^r in
exact integer arithmetic. -/
def smooth_spec_formula (reputation : Nat) : Nat :=
  if reputation = 0 then 1
  else
    let r := Nat.log2 reputation
    let d := (reputation - 2 ^ r) * 100 / 2 ^ r
    ((r + 1) * 100 + d) / 100 % 2 ^ 8

end Subsocial

namespace Subsocial

/-! Read lemmas for the state maps. -/

@[simp] theorem upd_self {α β : Type} [DecidableEq α] (f : α → Option β) (k : α)
    (v : Option β) : upd f k v k = v := by
  simp [upd]

theorem upd_ne {α β : Type} [DecidableEq α] (f : α → Option β) (k : α) (v : Option β)
    (x : α) (h : x ≠ k) : upd f k v x = f x := by
  simp [upd, h]

@[simp] theorem putSA_socialAccounts (s : State) (a : AccountId) (v : SocialAccount) :
    (putSA s a v).socialAccounts = upd s.socialAccounts a (some v) := rfl

@[simp] theorem putSA_posts (s : State) (a : AccountId) (v : SocialAccount) :
    (putSA s a v).posts = s.posts := rfl

@[simp] theorem putSA_spaces (s : State) (a : AccountId) (v : SocialAccount) :
    (putSA s a v).spaces = s.spaces := rfl

@[simp] theorem putSA_postScore (s : State) (a : AccountId) (v : SocialAccount) :
    (putSA s a v).postScore = s.postScore := rfl

@[simp] theorem putSA_repDiff (s : State) (a : AccountId) (v : SocialAccount) :
    (putSA s a v).repDiff = s.repDiff := rfl

@[simp] theorem putPost_posts (s : State) (i : PostId) (p : Post) :
    (putPost s i p).posts = upd s.posts i (some p) := rfl

@[simp] theorem putPost_socialAccounts (s : State) (i : PostId) (p : Post) :
    (putPost s i p).socialAccounts = s.socialAccounts := rfl

@[simp] theorem putPost_spaces (s : State) (i : PostId) (p : Post) :
    (putPost s i p).spaces = s.spaces := rfl

@[simp] theorem putPost_postScore (s : State) (i : PostId) (p : Post) :
    (putPost s i p).postScore = s.postScore := rfl

@[simp] theorem putPost_repDiff (s : State) (i : PostId) (p : Post) :
    (putPost s i p).repDiff = s.repDiff := rfl

@[simp] theorem putSpace_spaces (s : State) (i : SpaceId) (v : Space) :
    (putSpace s i v).spaces = upd s.spaces i (some v) := rfl

@[simp] theorem putSpace_socialAccounts (s : State) (i : SpaceId) (v : Space) :
    (putSpace s i v).socialAccounts = s.socialAccounts := rfl

@[simp] theorem putSpace_posts (s : State) (i : SpaceId) (v : Space) :
    (putSpace s i v).posts = s.posts := rfl

@[simp] theorem putSpace_postScore (s : State) (i : SpaceId) (v : Space) :
    (putSpace s i v).postScore = s.postScore := rfl

@[simp] theorem putSpace_repDiff (s : State) (i : SpaceId) (v : Space) :
    (putSpace s i v).repDiff = s.repDiff := rfl

@[simp] theorem putPostScore_postScore (s : State) (k : AccountId × PostId × ScoringAction)
    (v : Int) : (putPostScore s k v).postScore = upd s.postScore k (some v) := rfl

@[simp] theorem putPostScore_socialAccounts (s : State) (k : AccountId × PostId × ScoringAction)
    (v : Int) : (putPostScore s k v).socialAccounts = s.socialAccounts := rfl

@[simp] theorem putPostScore_posts (s : State) (k : AccountId × PostId × ScoringAction)
    (v : Int) : (putPostScore s k v).posts = s.posts := rfl

@[simp] theorem putPostScore_spaces (s : State) (k : AccountId × PostId × ScoringAction)
    (v : Int) : (putPostScore s k v).spaces = s.spaces := rfl

@[simp] theorem putPostScore_repDiff (s : State) (k : AccountId × PostId × ScoringAction)
    (v : Int) : (putPostScore s k v).repDiff = s.repDiff := rfl

@[simp] theorem removePostScore_postScore (s : State) (k : AccountId × PostId × ScoringAction) :
    (removePostScore s k).postScore = upd s.postScore k none := rfl

@[simp] theorem removePostScore_socialAccounts (s : State) (k : AccountId × PostId × ScoringAction) :
    (removePostScore s k).socialAccounts = s.socialAccounts := rfl

@[simp] theorem removePostScore_posts (s : State) (k : AccountId × PostId × ScoringAction) :
    (removePostScore s k).posts = s.posts := rfl

@[simp] theorem removePostScore_spaces (s : State) (k : AccountId × PostId × ScoringAction) :
    (removePostScore s k).spaces = s.spaces := rfl

@[simp] theorem removePostScore_repDiff (s : State) (k : AccountId × PostId × ScoringAction) :
    (removePostScore s k).repDiff = s.repDiff := rfl

@[simp] theorem putRepDiff_repDiff (s : State) (k : AccountId × AccountId × ScoringAction)
    (v : Int) : (putRepDiff s k v).repDiff = upd s.repDiff k (some v) := rfl

@[simp] theorem putRepDiff_socialAccounts (s : State) (k : AccountId × AccountId × ScoringAction)
    (v : Int) : (putRepDiff s k v).socialAccounts = s.socialAccounts := rfl

@[simp] theorem putRepDiff_posts (s : State) (k : AccountId × AccountId × ScoringAction)
    (v : Int) : (putRepDiff s k v).posts = s.posts := rfl

@[simp] theorem putRepDiff_spaces (s : State) (k : AccountId × AccountId × ScoringAction)
    (v : Int) : (putRepDiff s k v).spaces = s.spaces := rfl

@[simp] theorem putRepDiff_postScore (s : State) (k : AccountId × AccountId × ScoringAction)
    (v : Int) : (putRepDiff s k v).postScore = s.postScore := rfl

@[simp] theorem removeRepDiff_repDiff (s : State) (k : AccountId × AccountId × ScoringAction) :
    (removeRepDiff s k).repDiff = upd s.repDiff k none := rfl

@[simp] theorem removeRepDiff_socialAccounts (s : State) (k : AccountId × AccountId × ScoringAction) :
    (removeRepDiff s k).socialAccounts = s.socialAccounts := rfl

@[simp] theorem removeRepDiff_posts (s : State) (k : AccountId × AccountId × ScoringAction) :
    (removeRepDiff s k).posts = s.posts := rfl

@[simp] theorem removeRepDiff_spaces (s : State) (k : AccountId × AccountId × ScoringAction) :
    (removeRepDiff s k).spaces = s.spaces := rfl

@[simp] theorem removeRepDiff_postScore (s : State) (k : AccountId × AccountId × ScoringAction) :
    (removeRepDiff s k).postScore = s.postScore := rfl

theorem reputation_of_putSA_same (s : State) (a : AccountId) (v : SocialAccount) :
    reputation_of (putSA s a v) a = v.reputation := by
  simp [reputation_of, get_or_new_social_account]

theorem reputation_of_putSA_ne (s : State) (a b : AccountId) (v : SocialAccount)
    (h : b ≠ a) : reputation_of (putSA s a v) b = reputation_of s b := by
  simp [reputation_of, get_or_new_social_account, upd_ne _ _ _ _ h]

theorem get_or_new_putSA_same (s : State) (a : AccountId) (v : SocialAccount) :
    get_or_new_social_account (putSA s a v) a = v := by
  simp [get_or_new_social_account]

theorem get_or_new_putSA_ne (s : State) (a b : AccountId) (v : SocialAccount)
    (h : b ≠ a) : get_or_new_social_account (putSA s a v) b = get_or_new_social_account s b := by
  simp [get_or_new_social_account, upd_ne _ _ _ _ h]

/-! Arithmetic helper lemmas. -/

theorem i16_wrap_eq {x : Int} (h1 : -(2 ^ 15) ≤ x) (h2 : x < 2 ^ 15) : i16_wrap x = x := by
  unfold i16_wrap
  omega

theorem i16_wrap_lb (x : Int) : -(2 ^ 15) ≤ i16_wrap x := by
  unfold i16_wrap
  omega

theorem i16_wrap_ub (x : Int) : i16_wrap x < 2 ^ 15 := by
  unfold i16_wrap
  omega

theorem i16_neg_eq {x : Int} (h1 : -(2 ^ 15) < x) (h2 : x < 2 ^ 15) : i16_neg x = -x := by
  unfold i16_neg
  exact i16_wrap_eq (by omega) (by omega)

theorem u32_of_i16_nonneg {x : Int} (h0 : 0 ≤ x) (h : x < 2 ^ 32) :
    u32_of_i16 x = x.toNat := by
  unfold u32_of_i16
  congr 1
  omega

theorem score_diff_lb (cfg : Config) (r : Nat) (a : ScoringAction) :
    -(2 ^ 15) ≤ score_diff_for_action cfg r a :=
  i16_wrap_lb _

theorem score_diff_ub (cfg : Config) (r : Nat) (a : ScoringAction) :
    score_diff_for_action cfg r a < 2 ^ 15 :=
  i16_wrap_ub _

theorem log2_aux_eq (fuel : Nat) : ∀ n : Nat, n ≤ fuel → log2_aux fuel n = Nat.log2 n := by
  induction fuel with
  | zero =>
    intro n h
    have hn : n = 0 := Nat.le_zero.mp h
    subst hn
    rw [Nat.log2]
    simp [log2_aux]
  | succ f ih =>
    intro n h
    unfold log2_aux
    by_cases h1 : n ≤ 1
    · rw [if_pos h1, Nat.log2, if_neg (by omega)]
    · rw [if_neg h1, ih (n / 2) (by omega)]
      conv_rhs => rw [Nat.log2]
      rw [if_pos (by omega)]

theorem nat_log2_eq (n : Nat) : nat_log2 n = Nat.log2 n :=
  log2_aux_eq n n le_rfl

/-! The smoothing function collapses to `log2 + 1`: the interpolation term
`d` is at most 99 and is rounded away by the division by 100. -/

theorem smooth_reputation_zero : smooth_reputation 0 = 1 := rfl

theorem smooth_reputation_eq {n : Nat} (h0 : n ≠ 0) (h32 : n < 2 ^ 32) :
    smooth_reputation n = Nat.log2 n + 1 := by
  unfold smooth_reputation log_2
  rw [if_neg h0, nat_log2_eq]
  have hle : 2 ^ Nat.log2 n ≤ n := by
    rw [Nat.log2_eq_log_two]
    exact Nat.pow_log_le_self 2 h0
  have hlt : n < 2 ^ (Nat.log2 n + 1) := by
    rw [Nat.log2_eq_log_two]
    exact Nat.lt_pow_succ_log_self (by norm_num) n
  have hr : Nat.log2 n < 32 := by
    rw [Nat.log2_eq_log_two]
    exact Nat.log_lt_of_lt_pow h0 h32
  have hpow : 0 < 2 ^ Nat.log2 n := Nat.pos_pow_of_pos _ (by norm_num)
  have hd : (n - 2 ^ Nat.log2 n) * 100 / 2 ^ Nat.log2 n < 100 := by
    rw [Nat.div_lt_iff_lt_mul hpow]
    have : n - 2 ^ Nat.log2 n < 2 ^ Nat.log2 n := by
      have h2 : 2 ^ (Nat.log2 n + 1) = 2 ^ Nat.log2 n * 2 := by ring
      omega
    nlinarith
  simp only []
  set d := (n - 2 ^ Nat.log2 n) * 100 / 2 ^ Nat.log2 n with hdef
  have hdm : d % 2 ^ 32 = d := Nat.mod_eq_of_lt (by omega)
  rw [hdm]
  have hsum : (Nat.log2 n + 1) * 100 + d < 2 ^ 32 := by omega
  rw [Nat.mod_eq_of_lt hsum]
  have hdiv : ((Nat.log2 n + 1) * 100 + d) / 100 = Nat.log2 n + 1 := by
    omega
  rw [hdiv]
  exact Nat.mod_eq_of_lt (by omega)

theorem smooth_reputation_le {n : Nat} (h32 : n < 2 ^ 32) : smooth_reputation n ≤ 32 := by
  rcases eq_or_ne n 0 with h | h
  · subst h; simp [smooth_reputation_zero]
  · rw [smooth_reputation_eq h h32]
    have : Nat.log2 n < 32 := by
      rw [Nat.log2_eq_log_two]
      exact Nat.log_lt_of_lt_pow h h32
    omega

theorem smooth_reputation_pos {n : Nat} (h32 : n < 2 ^ 32) : 1 ≤ smooth_reputation n := by
  rcases eq_or_ne n 0 with h | h
  · subst h; simp [smooth_reputation_zero]
  · rw [smooth_reputation_eq h h32]
    omega

end Subsocial

namespace Subsocial

/-! Behaviour of the reputation ledger in the regimes the round-trip proofs
need: a fresh positive application above the floor, and a reversal that
lands on the floor clamp. -/

theorem ledger_fresh_pos (account scorer : AccountId) (d : Int) (action : ScoringAction)
    (s : State)
    (hrep1 : 1 ≤ reputation_of s account)
    (hrephi : reputation_of s account + d.toNat < 2 ^ 32)
    (hd : 0 < d) (hdu : d < 2 ^ 15)
    (hdiff : s.repDiff (scorer, account, action) = none) :
    change_social_account_reputation account scorer d action s =
      .ok (putSA (putRepDiff s (scorer, account, action) d) account
        ⟨reputation_of s account + d.toNat⟩) := by
  have hnc : ¬(((get_or_new_social_account s account).reputation : Int) + d ≤ 1) := by
    unfold reputation_of at hrep1
    omega
  have hcast : u32_of_i16 d = d.toNat := u32_of_i16_nonneg (le_of_lt hd) (by omega)
  have hadd : checked_add_u32 (get_or_new_social_account s account).reputation d.toNat =
      some ((get_or_new_social_account s account).reputation + d.toNat) := by
    unfold reputation_of at hrephi
    unfold checked_add_u32
    rw [if_pos hrephi]
  unfold change_social_account_reputation
  simp only [if_neg hnc, if_pos hd, hcast, hadd, hdiff, Option.isSome_none,
    Bool.false_eq_true, if_false]
  rfl

theorem ledger_reverse_floor (account scorer : AccountId) (d : Int) (action : ScoringAction)
    (s : State)
    (hclamp : (reputation_of s account : Int) + d ≤ 1)
    (hdiff : (s.repDiff (scorer, account, action)).isSome = true) :
    change_social_account_reputation account scorer d action s =
      .ok (putSA (removeRepDiff s (scorer, account, action)) account ⟨1⟩) := by
  have hc : ((get_or_new_social_account s account).reputation : Int) + d ≤ 1 := by
    unfold reputation_of at hclamp
    exact hclamp
  unfold change_social_account_reputation
  simp only [if_pos hc, lt_irrefl, if_false, hdiff, if_true]

end Subsocial

namespace Subsocial

/-- Fresh application on the post path: when the actor is not the owner,
holds no score record on the post for any action, and the owner's diff
record for this action is absent, a call with a positive in-bounds score
diff applies the full fresh-application branch: both scores grow by the
diff, the owner's reputation grows by it, and the two records are
created. -/
theorem post_fresh_apply (cfg : Config) (fuel : Nat) (x : AccountId) (P : Post)
    (A : ScoringAction) (s : State) (sid : SpaceId) (SP : Space) (d : Int)
    (hdval : d = score_diff_for_action cfg (get_or_new_social_account s x).reputation A)
    (hc : P.comment_root = none)
    (hsid : P.space_id = some sid)
    (hex : (s.posts P.id).isSome = true)
    (hspace : s.spaces sid = some SP)
    (hown : P.created_account ≠ x)
    (hrecs : ∀ a, s.postScore (x, P.id, a) = none)
    (hdiff : s.repDiff (x, P.created_account, A) = none)
    (hrep1 : 1 ≤ reputation_of s P.created_account)
    (hrephi : reputation_of s P.created_account + d.toNat < 2 ^ 32)
    (hd : 0 < d)
    (hplo : -(2 ^ 31) ≤ P.score + d) (hphi : P.score + d < 2 ^ 31)
    (hslo : -(2 ^ 31) ≤ SP.score + d) (hshi : SP.score + d < 2 ^ 31) :
    change_post_score cfg (fuel + 1) x P A s =
      .ok ({ P with score := P.score + d },
        putSpace
          (putPost
            (putPostScore
              (putSA
                (putRepDiff (putSA s x (get_or_new_social_account s x))
                  (x, P.created_account, A) d)
                P.created_account ⟨reputation_of s P.created_account + d.toNat⟩)
              (x, P.id, A) d)
            P.id { P with score := P.score + d })
          sid { SP with score := SP.score + d }) := by
  obtain ⟨q, hq⟩ := Option.isSome_iff_exists.mp hex
  have hcb : P.is_comment = false := by simp [Post.is_comment, hc]
  have hdu : d < 2 ^ 15 := by rw [hdval]; exact score_diff_ub cfg _ A
  have hrd : (putSA s x (get_or_new_social_account s x)).repDiff (x, P.created_account, A)
      = none := by simpa using hdiff
  have hro : reputation_of (putSA s x (get_or_new_social_account s x)) P.created_account
      = reputation_of s P.created_account := reputation_of_putSA_ne _ _ _ _ hown
  have hled : change_social_account_reputation P.created_account x d A
      (putSA s x (get_or_new_social_account s x)) =
      .ok (putSA
        (putRepDiff (putSA s x (get_or_new_social_account s x)) (x, P.created_account, A) d)
        P.created_account ⟨reputation_of s P.created_account + d.toNat⟩) := by
    rw [ledger_fresh_pos P.created_account x d A _ (by rw [hro]; exact hrep1)
      (by rw [hro]; exact hrephi) hd hdu hrd, hro]
  have hadd1 : checked_add_i32 P.score d = some (P.score + d) := by
    unfold checked_add_i32
    rw [if_pos ⟨hplo, hphi⟩]
  have hadd2 : checked_add_i32 SP.score d = some (SP.score + d) := by
    unfold checked_add_i32
    rw [if_pos ⟨hslo, hshi⟩]
  show change_post_score_core cfg (change_post_score cfg fuel) x P A s = _
  cases A <;>
    simp only [change_post_score_core, hcb, Bool.false_eq_true, if_false,
      putSA_posts, hq, hsid, putSA_spaces, hspace, putSA_postScore, hrecs,
      Option.isSome_none, if_neg hown, ← hdval, hadd1, hadd2, hled]

/-- Fresh CreateComment application on the post path.  Unlike the
upvote/downvote actions, the CreateComment arm of the fresh-application
branch reads no other score record of the actor on the post, so only the
absence of the CreateComment record itself is required. -/
theorem post_fresh_apply_create (cfg : Config) (fuel : Nat) (x : AccountId) (P : Post)
    (s : State) (sid : SpaceId) (SP : Space) (d : Int)
    (hdval : d = score_diff_for_action cfg (get_or_new_social_account s x).reputation
      .CreateComment)
    (hc : P.comment_root = none)
    (hsid : P.space_id = some sid)
    (hex : (s.posts P.id).isSome = true)
    (hspace : s.spaces sid = some SP)
    (hown : P.created_account ≠ x)
    (hrec : s.postScore (x, P.id, .CreateComment) = none)
    (hdiff : s.repDiff (x, P.created_account, .CreateComment) = none)
    (hrep1 : 1 ≤ reputation_of s P.created_account)
    (hrephi : reputation_of s P.created_account + d.toNat < 2 ^ 32)
    (hd : 0 < d)
    (hplo : -(2 ^ 31) ≤ P.score + d) (hphi : P.score + d < 2 ^ 31)
    (hslo : -(2 ^ 31) ≤ SP.score + d) (hshi : SP.score + d < 2 ^ 31) :
    change_post_score cfg (fuel + 1) x P .CreateComment s =
      .ok ({ P with score := P.score + d },
        putSpace
          (putPost
            (putPostScore
              (putSA
                (putRepDiff (putSA s x (get_or_new_social_account s x))
                  (x, P.created_account, .CreateComment) d)
                P.created_account ⟨reputation_of s P.created_account + d.toNat⟩)
              (x, P.id, .CreateComment) d)
            P.id { P with score := P.score + d })
          sid { SP with score := SP.score + d }) := by
  obtain ⟨q, hq⟩ := Option.isSome_iff_exists.mp hex
  have hcb : P.is_comment = false := by simp [Post.is_comment, hc]
  have hdu : d < 2 ^ 15 := by rw [hdval]; exact score_diff_ub cfg _ _
  have hrd : (putSA s x (get_or_new_social_account s x)).repDiff
      (x, P.created_account, .CreateComment) = none := by simpa using hdiff
  have hro : reputation_of (putSA s x (get_or_new_social_account s x)) P.created_account
      = reputation_of s P.created_account := reputation_of_putSA_ne _ _ _ _ hown
  have hled : change_social_account_reputation P.created_account x d .CreateComment
      (putSA s x (get_or_new_social_account s x)) =
      .ok (putSA
        (putRepDiff (putSA s x (get_or_new_social_account s x))
          (x, P.created_account, .CreateComment) d)
        P.created_account ⟨reputation_of s P.created_account + d.toNat⟩) := by
    rw [ledger_fresh_pos P.created_account x d .CreateComment _ (by rw [hro]; exact hrep1)
      (by rw [hro]; exact hrephi) hd hdu hrd, hro]
  have hadd1 : checked_add_i32 P.score d = some (P.score + d) := by
    unfold checked_add_i32
    rw [if_pos ⟨hplo, hphi⟩]
  have hadd2 : checked_add_i32 SP.score d = some (SP.score + d) := by
    unfold checked_add_i32
    rw [if_pos ⟨hslo, hshi⟩]
  show change_post_score_core cfg (change_post_score cfg fuel) x P .CreateComment s = _
  simp only [change_post_score_core, hcb, Bool.false_eq_true, if_false,
    putSA_posts, hq, hsid, putSA_spaces, hspace, putSA_postScore, hrec,
    if_neg hown, ← hdval, hadd1, hadd2, hled]

end Subsocial

namespace Subsocial

/-- Reversal on the post path: when the actor holds a score record of value
`u` on the post and the matching diff record (also `u`) exists, and the
owner's reputation minus `u` falls on the floor clamp, the call reverses
the application: both scores shrink by `u`, the owner's reputation is
clamped to 1, and both records are deleted. -/
theorem post_reversal (cfg : Config) (fuel : Nat) (x : AccountId) (P : Post)
    (A : ScoringAction) (s : State) (sid : SpaceId) (SP : Space) (u : Int)
    (hc : P.comment_root = none)
    (hsid : P.space_id = some sid)
    (hex : (s.posts P.id).isSome = true)
    (hspace : s.spaces sid = some SP)
    (hown : P.created_account ≠ x)
    (hrec : s.postScore (x, P.id, A) = some u)
    (hdiff : s.repDiff (x, P.created_account, A) = some u)
    (hulo : -(2 ^ 15) < u) (huhi : u < 2 ^ 15)
    (hplo : -(2 ^ 31) ≤ P.score - u) (hphi : P.score - u < 2 ^ 31)
    (hslo : -(2 ^ 31) ≤ SP.score - u) (hshi : SP.score - u < 2 ^ 31)
    (hclamp : (reputation_of s P.created_account : Int) - u ≤ 1) :
    change_post_score cfg (fuel + 1) x P A s =
      .ok ({ P with score := P.score - u },
        putSpace
          (putPost
            (removePostScore
              (putSA
                (removeRepDiff (putSA s x (get_or_new_social_account s x))
                  (x, P.created_account, A))
                P.created_account ⟨1⟩)
              (x, P.id, A))
            P.id { P with score := P.score - u })
          sid { SP with score := SP.score - u }) := by
  obtain ⟨q, hq⟩ := Option.isSome_iff_exists.mp hex
  have hcb : P.is_comment = false := by simp [Post.is_comment, hc]
  have hneg : i16_neg u = -u := i16_neg_eq hulo huhi
  have hro : reputation_of (putSA s x (get_or_new_social_account s x)) P.created_account
      = reputation_of s P.created_account := reputation_of_putSA_ne _ _ _ _ hown
  have hds : ((putSA s x (get_or_new_social_account s x)).repDiff
      (x, P.created_account, A)).isSome = true := by
    simp [hdiff]
  have hled : change_social_account_reputation P.created_account x (i16_neg u) A
      (putSA s x (get_or_new_social_account s x)) =
      .ok (putSA
        (removeRepDiff (putSA s x (get_or_new_social_account s x)) (x, P.created_account, A))
        P.created_account ⟨1⟩) := by
    rw [hneg]
    exact ledger_reverse_floor P.created_account x (-u) A _
      (by rw [hro]; omega) hds
  have hsub1 : checked_sub_i32 P.score u = some (P.score - u) := by
    unfold checked_sub_i32
    rw [if_pos ⟨hplo, hphi⟩]
  have hsub2 : checked_sub_i32 SP.score u = some (SP.score - u) := by
    unfold checked_sub_i32
    rw [if_pos ⟨hslo, hshi⟩]
  show change_post_score_core cfg (change_post_score cfg fuel) x P A s = _
  simp only [change_post_score_core, hcb, Bool.false_eq_true, if_false,
    putSA_posts, hq, hsid, putSA_spaces, hspace, putSA_postScore, hrec,
    putSA_repDiff, hdiff, if_neg hown, hsub1, hsub2, hled]

end Subsocial

namespace Subsocial

/-- C2 (amended): idempotent toggle on the post path, under the conditions
that make it hold on this code: the content is a non-comment post with a
containing space, the actor is not the owner and holds no score record on
the post for any action, the owner holds no prior diff record for the
action and sits at the reputation floor 1, the action's score diff is
positive, and the score arithmetic stays within i32 bounds.  Applying the
action twice then succeeds, restores the post score, the space score and
the owner's reputation, and leaves both the score record and the diff
record deleted. -/
theorem c2_round_trip (cfg : Config) (s : State) (x : AccountId) (P : Post)
    (sid : SpaceId) (SP : Space) (A : ScoringAction) (d : Int)
    (hdval : d = score_diff_for_action cfg (get_or_new_social_account s x).reputation A)
    (hc : P.comment_root = none)
    (hsid : P.space_id = some sid)
    (hex : (s.posts P.id).isSome = true)
    (hspace : s.spaces sid = some SP)
    (hown : P.created_account ≠ x)
    (hrecs : ∀ a, s.postScore (x, P.id, a) = none)
    (hdiff : s.repDiff (x, P.created_account, A) = none)
    (hrep1 : reputation_of s P.created_account = 1)
    (hd : 0 < d)
    (hp0 : -(2 ^ 31) ≤ P.score) (hphi : P.score + d < 2 ^ 31)
    (hs0 : -(2 ^ 31) ≤ SP.score) (hshi : SP.score + d < 2 ^ 31) :
    resultError (change_post_score_by_extension cfg x P A s) = none ∧
    resultError (apply_twice cfg x P A s) = none ∧
    resultPost (apply_twice cfg x P A s) = some P ∧
    post_score_in (finalState (apply_twice cfg x P A s)) P.id = some P.score ∧
    space_score_in (finalState (apply_twice cfg x P A s)) sid = some SP.score ∧
    reputation_of (finalState (apply_twice cfg x P A s)) P.created_account
      = reputation_of s P.created_account ∧
    (finalState (apply_twice cfg x P A s)).postScore (x, P.id, A) = none ∧
    (finalState (apply_twice cfg x P A s)).repDiff (x, P.created_account, A) = none := by
  have hdu : d < 2 ^ 15 := by rw [hdval]; exact score_diff_ub cfg _ A
  have hncb : ¬(P.is_comment = true) := by simp [Post.is_comment, hc]
  have hncb1 : ¬(({ P with score := P.score + d } : Post).is_comment = true) := by
    simp [Post.is_comment, hc]
  unfold apply_twice change_post_score_by_extension
  rw [if_neg hncb]
  rw [post_fresh_apply cfg 1 x P A s sid SP d hdval hc hsid hex hspace hown hrecs hdiff
    (by omega) (by omega) hd (by omega) hphi (by omega) hshi]
  simp only []
  rw [if_neg hncb1]
  rw [post_reversal cfg 1 x { P with score := P.score + d } A _ sid
    { SP with score := SP.score + d } d hc hsid
    (by simp) (by simp [upd_self]) hown
    (by simp) (by simp)
    (by omega) hdu
    (by simp; omega) (by simp; omega) (by simp; omega) (by simp; omega)
    (by
      have hrd : reputation_of
          (putSpace
            (putPost
              (putPostScore
                (putSA
                  (putRepDiff (putSA s x (get_or_new_social_account s x))
                    (x, P.created_account, A) d)
                  P.created_account ⟨reputation_of s P.created_account + d.toNat⟩)
                (x, P.id, A) d)
              P.id { P with score := P.score + d })
            sid { SP with score := SP.score + d }) P.created_account
          = reputation_of s P.created_account + d.toNat := by
        simp [reputation_of, get_or_new_social_account]
      rw [hrd, hrep1]
      omega)]
  refine ⟨rfl, rfl, ?_, ?_, ?_, ?_, ?_, ?_⟩
  · simp [resultPost]
  · simp [finalState, post_score_in]
  · simp [finalState, space_score_in]
  · rw [hrep1]
    simp [finalState, reputation_of, get_or_new_social_account, upd_ne _ _ _ _ hown]
  · simp [finalState]
  · simp [finalState]

end Subsocial

namespace Subsocial

/-- C2 witness: the spec's own concrete scenario — actor 2 (reputation 1)
upvotes post 7 (owner 1 at reputation 1, weight 5) twice from
`base_state`; the round trip restores everything. -/
theorem c2_round_trip_witness :
    resultError (change_post_score_by_extension sampleCfg 2 post7 .UpvotePost base_state)
      = none ∧
    resultError (apply_twice sampleCfg 2 post7 .UpvotePost base_state) = none ∧
    resultPost (apply_twice sampleCfg 2 post7 .UpvotePost base_state) = some post7 ∧
    post_score_in (finalState (apply_twice sampleCfg 2 post7 .UpvotePost base_state)) 7
      = some 0 ∧
    space_score_in (finalState (apply_twice sampleCfg 2 post7 .UpvotePost base_state)) 4
      = some 0 ∧
    reputation_of (finalState (apply_twice sampleCfg 2 post7 .UpvotePost base_state)) 1
      = reputation_of base_state 1 ∧
    (finalState (apply_twice sampleCfg 2 post7 .UpvotePost base_state)).postScore
      (2, 7, .UpvotePost) = none ∧
    (finalState (apply_twice sampleCfg 2 post7 .UpvotePost base_state)).repDiff
      (2, 1, .UpvotePost) = none :=
  c2_round_trip sampleCfg base_state 2 post7 4 ⟨0⟩ .UpvotePost 5
    (by decide) rfl rfl rfl rfl (by decide) (fun _ => rfl) rfl rfl
    (by decide) (by decide) (by decide) (by decide) (by decide)

/-- C2 counterexample: the identical double application from `c2_state`,
where the owner's reputation is 10 rather than 1.  The first application
succeeds (owner reputation 15), but the second — the claim's reversal —
fails with ReputationUnderflow (the ledger subtracts the sign-extended
`-5 as u32` = 2^32 − 5 from 15), leaving the score record, the post score
and the owner's reputation un-restored.  This falsifies the claim's
universal round trip. -/
theorem c2_counterexample :
    resultError (change_post_score_by_extension sampleCfg 2 post7 .UpvotePost c2_state)
      = none ∧
    resultError (apply_twice sampleCfg 2 post7 .UpvotePost c2_state)
      = some .ReputationUnderflow ∧
    (finalState (apply_twice sampleCfg 2 post7 .UpvotePost c2_state)).postScore
      (2, 7, .UpvotePost) = some 5 ∧
    post_score_in (finalState (apply_twice sampleCfg 2 post7 .UpvotePost c2_state)) 7
      = some 5 ∧
    reputation_of (finalState (apply_twice sampleCfg 2 post7 .UpvotePost c2_state)) 1 = 15 ∧
    reputation_of c2_state 1 = 10 ∧
    post_score_in c2_state 7 = some 0 :=
  ⟨rfl, rfl, rfl, rfl, rfl, rfl, rfl⟩

/-- C1: at reputation 10 with delta −5 the floor clamp does not fire
(10 − 5 = 5 > 1) and 10 is not less than |−5|, so the claim promises
success with reputation 5; the code instead fails with
ReputationUnderflow, because the checked subtraction uses the
sign-extended cast `score_diff as u32` = 2^32 − 5 rather than |−5|. -/
theorem c1_negative_delta_underflows :
    change_social_account_reputation 1 2 (-5) .UpvotePost c1_state =
      .error (.ReputationUnderflow, c1_state) ∧
    reputation_of c1_state 1 = 10 ∧
    u32_of_i16 (-5) = 2 ^ 32 - 5 :=
  ⟨rfl, rfl, rfl⟩

/-- C5: starting from a state whose only stored reputation is
2^32 − 5 ≥ 1, a single ledger call with delta −5 succeeds — the
sign-extended subtraction of 2^32 − 5 from 2^32 − 5 yields 0 — and
persists reputation 0, violating the "never below 1" floor invariant. -/
theorem c5_reputation_reaches_zero :
    reputation_of c5_state 1 = 2 ^ 32 - 5 ∧
    ledgerError (change_social_account_reputation 1 2 (-5) .UpvotePost c5_state) = none ∧
    (ledgerFinal (change_social_account_reputation 1 2 (-5) .UpvotePost c5_state)).socialAccounts 1
      = some ⟨0⟩ :=
  ⟨rfl, rfl, rfl⟩

/-- C4: actor 2 holds an outstanding upvote (+5) on post 7 (`c4_state`:
post score 5, space score 5, owner reputation 6).  Applying DownvotePost
(weight −3) succeeds and reverses the upvote on the post score and the
reputation, but the space ends at 5 − 3 = 2: the outer call adds the
downvote diff to the stale space value 5 it loaded before the nested
reversal and overwrites the reversal's space write.  Applying DownvotePost
from the record-free `c4_clean_state` yields space score −3, so the
result does not equal the clean-state application. -/
theorem c4_stale_space_write :
    resultError (change_post_score_by_extension sampleCfg 2 post7s5 .DownvotePost c4_state)
      = none ∧
    space_score_in
      (finalState (change_post_score_by_extension sampleCfg 2 post7s5 .DownvotePost c4_state)) 4
      = some 2 ∧
    post_score_in
      (finalState (change_post_score_by_extension sampleCfg 2 post7s5 .DownvotePost c4_state)) 7
      = some (-3) ∧
    (finalState (change_post_score_by_extension sampleCfg 2 post7s5 .DownvotePost c4_state)).postScore
      (2, 7, .UpvotePost) = none ∧
    (finalState (change_post_score_by_extension sampleCfg 2 post7s5 .DownvotePost c4_state)).postScore
      (2, 7, .DownvotePost) = some (-3) ∧
    resultError (change_post_score_by_extension sampleCfg 2 post7 .DownvotePost c4_clean_state)
      = none ∧
    space_score_in
      (finalState (change_post_score_by_extension sampleCfg 2 post7 .DownvotePost c4_clean_state)) 4
      = some (-3) ∧
    post_score_in
      (finalState (change_post_score_by_extension sampleCfg 2 post7 .DownvotePost c4_clean_state)) 7
      = some (-3) :=
  ⟨rfl, rfl, rfl, rfl, rfl, rfl, rfl, rfl⟩

/-- C3 counterexample: from `c3_state` (outstanding upvote, post score
near the i32 floor) a DownvotePost fails with PostScoreOverflow, yet the
nested upvote reversal's writes persist: the stored post score, the space
score, the score record and the owner's reputation all differ from their
pre-call values at the moment the error is returned. -/
theorem c3_counterexample :
    resultError (change_post_score_by_extension sampleCfg 2 post7min .DownvotePost c3_state)
      = some .PostScoreOverflow ∧
    post_score_in
      (finalState (change_post_score_by_extension sampleCfg 2 post7min .DownvotePost c3_state)) 7
      = some (-(2 ^ 31)) ∧
    post_score_in c3_state 7 = some (-(2 ^ 31) + 5) ∧
    space_score_in
      (finalState (change_post_score_by_extension sampleCfg 2 post7min .DownvotePost c3_state)) 4
      = some 0 ∧
    space_score_in c3_state 4 = some 5 ∧
    (finalState (change_post_score_by_extension sampleCfg 2 post7min .DownvotePost c3_state)).postScore
      (2, 7, .UpvotePost) = none ∧
    c3_state.postScore (2, 7, .UpvotePost) = some 5 ∧
    reputation_of
      (finalState (change_post_score_by_extension sampleCfg 2 post7min .DownvotePost c3_state)) 1
      = 1 ∧
    reputation_of c3_state 1 = 6 :=
  ⟨rfl, rfl, rfl, rfl, rfl, rfl, rfl, rfl, rfl⟩

/-- C3 (amended): the reputation ledger call itself is atomic — whenever
`change_social_account_reputation` returns an error, the state it reports
is exactly the state it was given, because its only fallible step (the
checked reputation arithmetic) precedes all of its writes.  Full-action
atomicity of the propagator does not hold (see the counterexample). -/
theorem c3_ledger_atomic (account scorer : AccountId) (d : Int) (action : ScoringAction)
    (s sErr : State) (e : ScoresError)
    (h : change_social_account_reputation account scorer d action s = .error (e, sErr)) :
    sErr = s := by
  unfold change_social_account_reputation at h
  simp only [] at h
  by_cases h1 : ((get_or_new_social_account s account).reputation : Int) + d ≤ 1
  · rw [if_pos h1, if_pos h1] at h
    norm_num at h
    rcases h2 : (s.repDiff (scorer, account, action)).isSome with _ | _ <;> simp [h2] at h
  · rw [if_neg h1, if_neg h1] at h
    by_cases h2 : 0 < d
    · rw [if_pos h2] at h
      rcases h3 : checked_add_u32 (get_or_new_social_account s account).reputation
          (u32_of_i16 d) with _ | r
      · rw [h3] at h
        simp only [] at h
        injection h with h4
        injection h4 with h5 h6
        exact h6.symm
      · rw [h3] at h
        rcases h4 : (s.repDiff (scorer, account, action)).isSome with _ | _ <;>
          simp [h4] at h
    · rw [if_neg h2] at h
      by_cases h3 : d < 0
      · rw [if_pos h3] at h
        rcases h4 : checked_sub_u32 (get_or_new_social_account s account).reputation
            (u32_of_i16 d) with _ | r
        · rw [h4] at h
          simp only [] at h
          injection h with h5
          injection h5 with h6 h7
          exact h7.symm
        · rw [h4] at h
          rcases h5 : (s.repDiff (scorer, account, action)).isSome with _ | _ <;>
            simp [h5] at h
      · rw [if_neg h3] at h
        rcases h4 : (s.repDiff (scorer, account, action)).isSome with _ | _ <;>
          simp [h4] at h

/-- C3 witness: a failing ledger call (reputation u32::MAX, delta +5 →
ReputationOverflow) leaves the state it reports equal to the input
state. -/
theorem c3_ledger_atomic_witness : c3_ledger_state = c3_ledger_state :=
  c3_ledger_atomic 1 2 5 .UpvotePost c3_ledger_state c3_ledger_state .ReputationOverflow rfl

end Subsocial

namespace Subsocial

/-- C7: self-action no-op — when the actor is the content's owner (and the
content exists, with its space resolvable when it is a post with one), the
call returns Ok and the only write is the idempotent re-insert of the
actor's social account: posts, spaces, score records and diff records are
untouched and every account's effective reputation is unchanged. -/
theorem c7_self_action_noop (cfg : Config) (s : State) (x : AccountId) (p : Post)
    (a : ScoringAction)
    (hown : p.created_account = x)
    (hex : (s.posts p.id).isSome = true)
    (hspace : ∀ sid, p.space_id = some sid → (s.spaces sid).isSome = true) :
    change_post_score_by_extension cfg x p a s =
      .ok (p, putSA s x (get_or_new_social_account s x)) ∧
    (putSA s x (get_or_new_social_account s x)).posts = s.posts ∧
    (putSA s x (get_or_new_social_account s x)).spaces = s.spaces ∧
    (putSA s x (get_or_new_social_account s x)).postScore = s.postScore ∧
    (putSA s x (get_or_new_social_account s x)).repDiff = s.repDiff ∧
    ∀ b, reputation_of (putSA s x (get_or_new_social_account s x)) b = reputation_of s b := by
  obtain ⟨q, hq⟩ := Option.isSome_iff_exists.mp hex
  refine ⟨?_, rfl, rfl, rfl, rfl, ?_⟩
  · unfold change_post_score_by_extension
    by_cases hcc : p.is_comment = true
    · rw [if_pos hcc]
      show change_comment_score_core cfg (change_comment_score cfg 1) (change_post_score cfg 1)
          x p a s = _
      simp only [change_comment_score_core, hcc, Bool.not_true, Bool.false_eq_true, if_false,
        putSA_posts, hq, if_pos hown]
    · rw [if_neg hcc]
      have hcf : p.is_comment = false := by
        revert hcc
        cases p.is_comment <;> simp
      show change_post_score_core cfg (change_post_score cfg 1) x p a s = _
      rcases hsp : p.space_id with _ | sid
      · simp only [change_post_score_core, hcf, Bool.false_eq_true, if_false,
          putSA_posts, hq, hsp]
      · obtain ⟨SPv, hSPv⟩ := Option.isSome_iff_exists.mp (hspace sid hsp)
        simp only [change_post_score_core, hcf, Bool.false_eq_true, if_false,
          putSA_posts, hq, hsp, putSA_spaces, hSPv, if_pos hown]
  · intro b
    rcases eq_or_ne b x with hb | hb
    · subst hb
      rw [reputation_of_putSA_same]
      rfl
    · exact reputation_of_putSA_ne _ _ _ _ hb

/-- C7 witness: owner 1 upvoting their own post 7 in `base_state` returns
Ok and leaves their reputation unchanged. -/
theorem c7_self_action_noop_witness :
    change_post_score_by_extension sampleCfg 1 post7 .UpvotePost base_state =
      .ok (post7, putSA base_state 1 (get_or_new_social_account base_state 1)) ∧
    reputation_of (putSA base_state 1 (get_or_new_social_account base_state 1)) 1 =
      reputation_of base_state 1 :=
  ⟨(c7_self_action_noop sampleCfg base_state 1 post7 .UpvotePost rfl rfl
      (fun sid hs => by simp [post7] at hs; subst hs; rfl)).1,
   (c7_self_action_noop sampleCfg base_state 1 post7 .UpvotePost rfl rfl
      (fun sid hs => by simp [post7] at hs; subst hs; rfl)).2.2.2.2.2 1⟩

/-- C10: spaceless-post no-op — for a stored non-comment post whose
`space_id` is `None`, any action by any actor returns Ok and the only
write is the idempotent re-insert of the actor's social account; the
post's score, all space scores, all effective reputations and both record
tables are unchanged. -/
theorem c10_spaceless_noop (cfg : Config) (s : State) (x : AccountId) (p : Post)
    (a : ScoringAction)
    (hc : p.comment_root = none)
    (hsp : p.space_id = none)
    (hex : (s.posts p.id).isSome = true) :
    change_post_score_by_extension cfg x p a s =
      .ok (p, putSA s x (get_or_new_social_account s x)) ∧
    (putSA s x (get_or_new_social_account s x)).posts = s.posts ∧
    (putSA s x (get_or_new_social_account s x)).spaces = s.spaces ∧
    (putSA s x (get_or_new_social_account s x)).postScore = s.postScore ∧
    (putSA s x (get_or_new_social_account s x)).repDiff = s.repDiff ∧
    ∀ b, reputation_of (putSA s x (get_or_new_social_account s x)) b = reputation_of s b := by
  obtain ⟨q, hq⟩ := Option.isSome_iff_exists.mp hex
  have hcf : p.is_comment = false := by simp [Post.is_comment, hc]
  refine ⟨?_, rfl, rfl, rfl, rfl, ?_⟩
  · unfold change_post_score_by_extension
    rw [if_neg (by simp [hcf])]
    show change_post_score_core cfg (change_post_score cfg 1) x p a s = _
    simp only [change_post_score_core, hcf, Bool.false_eq_true, if_false,
      putSA_posts, hq, hsp]
  · intro b
    rcases eq_or_ne b x with hb | hb
    · subst hb
      rw [reputation_of_putSA_same]
      rfl
    · exact reputation_of_putSA_ne _ _ _ _ hb

/-- C10 witness: actor 2 upvoting the stored spaceless post 7 returns Ok
with no score or reputation effect. -/
theorem c10_spaceless_noop_witness :
    change_post_score_by_extension sampleCfg 2 rootNoSpace .UpvotePost c10_state =
      .ok (rootNoSpace, putSA c10_state 2 (get_or_new_social_account c10_state 2)) ∧
    reputation_of (putSA c10_state 2 (get_or_new_social_account c10_state 2)) 1 =
      reputation_of c10_state 1 :=
  ⟨(c10_spaceless_noop sampleCfg c10_state 2 rootNoSpace .UpvotePost rfl rfl rfl).1,
   (c10_spaceless_noop sampleCfg c10_state 2 rootNoSpace .UpvotePost rfl rfl rfl).2.2.2.2.2 1⟩

theorem spec_formula_eq {n : Nat} (h0 : n ≠ 0) (h32 : n < 2 ^ 32) :
    smooth_spec_formula n = Nat.log2 n + 1 := by
  unfold smooth_spec_formula
  rw [if_neg h0]
  have hle : 2 ^ Nat.log2 n ≤ n := by
    rw [Nat.log2_eq_log_two]
    exact Nat.pow_log_le_self 2 h0
  have hlt : n < 2 ^ (Nat.log2 n + 1) := by
    rw [Nat.log2_eq_log_two]
    exact Nat.lt_pow_succ_log_self (by norm_num) n
  have hr : Nat.log2 n < 32 := by
    rw [Nat.log2_eq_log_two]
    exact Nat.log_lt_of_lt_pow h0 h32
  have hpow : 0 < 2 ^ Nat.log2 n := Nat.pos_pow_of_pos _ (by norm_num)
  have hd : (n - 2 ^ Nat.log2 n) * 100 / 2 ^ Nat.log2 n < 100 := by
    rw [Nat.div_lt_iff_lt_mul hpow]
    have h2 : n - 2 ^ Nat.log2 n < 2 ^ Nat.log2 n := by
      have h3 : 2 ^ (Nat.log2 n + 1) = 2 ^ Nat.log2 n * 2 := by ring
      omega
    nlinarith
  simp only []
  have hd0 : 0 ≤ (n - 2 ^ Nat.log2 n) * 100 / 2 ^ Nat.log2 n := Nat.zero_le _
  have hdiv : ((Nat.log2 n + 1) * 100 + (n - 2 ^ Nat.log2 n) * 100 / 2 ^ Nat.log2 n) / 100
      = Nat.log2 n + 1 := by
    omega
  rw [hdiv]
  exact Nat.mod_eq_of_lt (by omega)

/-- C8: for every u32 reputation value the source `smooth_reputation`
agrees with the claim's formula (1 at reputation 0, else
`((r+1)*100 + d) / 100` truncated to u8, with `r = floor(log2 reputation)`
and `d = (reputation − 2^r) * 100 / 2^r` in exact integer arithmetic). -/
theorem c8_smooth_matches_claim {n : Nat} (h32 : n < 2 ^ 32) :
    smooth_reputation n = smooth_spec_formula n := by
  rcases eq_or_ne n 0 with h | h
  · subst h
    rfl
  · rw [smooth_reputation_eq h h32, spec_formula_eq h h32]

/-- C8 witness: the two formulas agree at reputation 12345. -/
theorem c8_smooth_matches_claim_witness :
    smooth_reputation 12345 = smooth_spec_formula 12345 :=
  c8_smooth_matches_claim (by norm_num)

/-- C9: the smoothing function is monotone non-decreasing on u32 inputs
and strictly below 33, so `score_diff_for_action` reduces to the exact
product `smooth * weight` — comfortably inside i16 — whenever the weight's
magnitude is at most 1023 (the largest bound the factor 32 guarantees:
32 · 1023 = 32736 < 2^15). -/
theorem c9_smooth_bounds :
    (∀ n m : Nat, n ≤ m → m < 2 ^ 32 → smooth_reputation n ≤ smooth_reputation m) ∧
    (∀ n : Nat, n < 2 ^ 32 → smooth_reputation n < 33) ∧
    (∀ (cfg : Config) (n : Nat) (a : ScoringAction), n < 2 ^ 32 →
      (weight_of_scoring_action cfg a).natAbs ≤ 1023 →
      score_diff_for_action cfg n a
          = (smooth_reputation n : Int) * weight_of_scoring_action cfg a ∧
        -(2 ^ 15) ≤ score_diff_for_action cfg n a ∧
        score_diff_for_action cfg n a < 2 ^ 15) := by
  refine ⟨?_, ?_, ?_⟩
  · intro n m hnm h32
    rcases eq_or_ne n 0 with h | h
    · subst h
      rw [smooth_reputation_zero]
      exact smooth_reputation_pos h32
    · have hm : m ≠ 0 := by omega
      rw [smooth_reputation_eq h (by omega), smooth_reputation_eq hm h32]
      have hmono : Nat.log2 n ≤ Nat.log2 m := by
        rw [Nat.log2_eq_log_two, Nat.log2_eq_log_two]
        exact Nat.log_mono_right hnm
      omega
  · intro n h32
    have := smooth_reputation_le h32
    omega
  · intro cfg n a h32 hw
    have hs32 : smooth_reputation n ≤ 32 := smooth_reputation_le h32
    have hsi : (smooth_reputation n : Int) ≤ 32 := by exact_mod_cast hs32
    have hs0 : (0 : Int) ≤ (smooth_reputation n : Int) := by positivity
    have hwb : -(1023 : Int) ≤ weight_of_scoring_action cfg a ∧
        weight_of_scoring_action cfg a ≤ 1023 := by omega
    have hub : (smooth_reputation n : Int) * weight_of_scoring_action cfg a ≤ 32 * 1023 := by
      calc (smooth_reputation n : Int) * weight_of_scoring_action cfg a
          ≤ (smooth_reputation n : Int) * 1023 := mul_le_mul_of_nonneg_left hwb.2 hs0
        _ ≤ 32 * 1023 := mul_le_mul_of_nonneg_right hsi (by norm_num)
    have hlb : -(32 * 1023 : Int) ≤ (smooth_reputation n : Int) * weight_of_scoring_action cfg a := by
      have h1 : (smooth_reputation n : Int) * (-1023) ≤
          (smooth_reputation n : Int) * weight_of_scoring_action cfg a :=
        mul_le_mul_of_nonneg_left hwb.1 hs0
      have h2 : (smooth_reputation n : Int) * (-1023) = -((smooth_reputation n : Int) * 1023) := by
        ring
      have h3 : (smooth_reputation n : Int) * 1023 ≤ 32 * 1023 :=
        mul_le_mul_of_nonneg_right hsi (by norm_num)
      linarith
    have heq : score_diff_for_action cfg n a
        = (smooth_reputation n : Int) * weight_of_scoring_action cfg a := by
      unfold score_diff_for_action
      exact i16_wrap_eq (by omega) (by omega)
    exact ⟨heq, by rw [heq]; omega, by rw [heq]; omega⟩

/-- C9 witness: monotonicity at 3 ≤ 9, the bound at 9, and the exact i16
product for the sample upvote weight 5. -/
theorem c9_smooth_bounds_witness :
    smooth_reputation 3 ≤ smooth_reputation 9 ∧
    smooth_reputation 9 < 33 ∧
    (score_diff_for_action sampleCfg 9 .UpvotePost
        = (smooth_reputation 9 : Int) * weight_of_scoring_action sampleCfg .UpvotePost ∧
      -(2 ^ 15) ≤ score_diff_for_action sampleCfg 9 .UpvotePost ∧
      score_diff_for_action sampleCfg 9 .UpvotePost < 2 ^ 15) :=
  ⟨c9_smooth_bounds.1 3 9 (by norm_num) (by norm_num),
   c9_smooth_bounds.2.1 9 (by norm_num),
   c9_smooth_bounds.2.2 sampleCfg 9 .UpvotePost (by norm_num) (by decide)⟩

end Subsocial

namespace Subsocial

/-- C6 counterexample: actor 2 creates comment 9 under root post 7 whose
`space_id` is `None` (`c6_state`).  The call succeeds and the comment's
score grows by the diff 3, but the root post's score is left at 0 — the
nested `change_post_score` silently skips spaceless posts — contradicting
the claim that both scores increase. -/
theorem c6_counterexample :
    resultError (change_post_score_by_extension sampleCfg 2 comment9 .CreateComment c6_state)
      = none ∧
    score_diff_for_action sampleCfg (reputation_of c6_state 2) .CreateComment = 3 ∧
    post_score_in
      (finalState (change_post_score_by_extension sampleCfg 2 comment9 .CreateComment c6_state)) 9
      = some 3 ∧
    post_score_in
      (finalState (change_post_score_by_extension sampleCfg 2 comment9 .CreateComment c6_state)) 7
      = some 0 ∧
    post_score_in c6_state 7 = some 0 :=
  ⟨rfl, rfl, rfl, rfl, rfl⟩

/-- C6 (amended): comment-creation propagation, under the conditions that
make it hold on this code: the comment's root post exists, is a
non-comment with a containing space, is not owned by the actor and has a
different owner than the comment, the actor holds no CreateComment score
record on either the comment or the root, neither owner has a prior
CreateComment diff record from the actor, both owners' reputations are at
least 1 with headroom, the diff is positive and the score arithmetic stays
in bounds.  A CreateComment by the actor on the comment then succeeds and
increases both the comment's and the root post's stored scores by the same
independently computed diff `d = smooth(actor reputation) * weight`. -/
theorem c6_comment_propagation (cfg : Config) (s : State) (x : AccountId) (K P : Post)
    (sid : SpaceId) (SP : Space) (d : Int)
    (hdval : d = score_diff_for_action cfg (get_or_new_social_account s x).reputation
      .CreateComment)
    (hkroot : K.comment_root = some P.id)
    (hkex : s.posts K.id = some K)
    (hpex : s.posts P.id = some P)
    (hpc : P.comment_root = none)
    (hpsid : P.space_id = some sid)
    (hspace : s.spaces sid = some SP)
    (hko : K.created_account ≠ x)
    (hpo : P.created_account ≠ x)
    (hkp : K.created_account ≠ P.created_account)
    (hrecK : s.postScore (x, K.id, .CreateComment) = none)
    (hrecP : s.postScore (x, P.id, .CreateComment) = none)
    (hdiffK : s.repDiff (x, K.created_account, .CreateComment) = none)
    (hdiffP : s.repDiff (x, P.created_account, .CreateComment) = none)
    (hrepK1 : 1 ≤ reputation_of s K.created_account)
    (hrepKhi : reputation_of s K.created_account + d.toNat < 2 ^ 32)
    (hrepP1 : 1 ≤ reputation_of s P.created_account)
    (hrepPhi : reputation_of s P.created_account + d.toNat < 2 ^ 32)
    (hd : 0 < d)
    (hklo : -(2 ^ 31) ≤ K.score + d) (hkhi : K.score + d < 2 ^ 31)
    (hplo : -(2 ^ 31) ≤ P.score + d) (hphi : P.score + d < 2 ^ 31)
    (hslo : -(2 ^ 31) ≤ SP.score + d) (hshi : SP.score + d < 2 ^ 31) :
    resultError (change_post_score_by_extension cfg x K .CreateComment s) = none ∧
    resultPost (change_post_score_by_extension cfg x K .CreateComment s)
      = some { K with score := K.score + d } ∧
    post_score_in (finalState (change_post_score_by_extension cfg x K .CreateComment s)) K.id
      = some (K.score + d) ∧
    post_score_in (finalState (change_post_score_by_extension cfg x K .CreateComment s)) P.id
      = some (P.score + d) := by
  have hkpid : K.id ≠ P.id := by
    intro h
    rw [h, hpex] at hkex
    injection hkex with h2
    subst h2
    rw [hpc] at hkroot
    exact Option.noConfusion hkroot
  have hkc : K.is_comment = true := by simp [Post.is_comment, hkroot]
  -- the nested root-post application, from the state after the actor's
  -- social-account insert
  have hnest := post_fresh_apply_create cfg 0 x P
    (putSA s x (get_or_new_social_account s x)) sid SP d
    (by rw [get_or_new_putSA_same]; exact hdval)
    hpc hpsid (by simp [hpex]) (by simpa using hspace) hpo
    (by simpa using hrecP)
    (by simpa using hdiffP)
    (by rw [reputation_of_putSA_ne _ _ _ _ hpo]; exact hrepP1)
    (by rw [reputation_of_putSA_ne _ _ _ _ hpo]; exact hrepPhi)
    hd hplo hphi hslo hshi
  rw [reputation_of_putSA_ne _ _ _ _ hpo] at hnest
  -- the ledger call for the comment owner, from the state the nested call
  -- leaves behind
  have hledK := ledger_fresh_pos K.created_account x d .CreateComment
    (putSpace
      (putPost
        (putPostScore
          (putSA
            (putRepDiff
              (putSA (putSA s x (get_or_new_social_account s x)) x
                (get_or_new_social_account s x))
              (x, P.created_account, .CreateComment) d)
            P.created_account ⟨reputation_of s P.created_account + d.toNat⟩)
          (x, P.id, .CreateComment) d)
        P.id { P with score := P.score + d })
      sid { SP with score := SP.score + d })
    (by
      simp only [reputation_of, get_or_new_social_account, putSpace_socialAccounts,
        putPost_socialAccounts, putPostScore_socialAccounts, putSA_socialAccounts,
        putRepDiff_socialAccounts]
      rw [upd_ne _ _ _ _ hkp, upd_ne _ _ _ _ hko, upd_ne _ _ _ _ hko]
      exact hrepK1)
    (by
      simp only [reputation_of, get_or_new_social_account, putSpace_socialAccounts,
        putPost_socialAccounts, putPostScore_socialAccounts, putSA_socialAccounts,
        putRepDiff_socialAccounts]
      rw [upd_ne _ _ _ _ hkp, upd_ne _ _ _ _ hko, upd_ne _ _ _ _ hko]
      exact hrepKhi)
    hd (by rw [hdval]; exact score_diff_ub cfg _ _)
    (by
      simp only [putSpace_repDiff, putPost_repDiff, putPostScore_repDiff, putSA_repDiff,
        putRepDiff_repDiff]
      rw [upd_ne _ _ _ _ (by simp [hkp] : ((x, K.created_account, ScoringAction.CreateComment) :
        AccountId × AccountId × ScoringAction) ≠ (x, P.created_account, .CreateComment))]
      exact hdiffK)
  have haddK : checked_add_i32 K.score d = some (K.score + d) := by
    unfold checked_add_i32
    rw [if_pos ⟨hklo, hkhi⟩]
  unfold change_post_score_by_extension
  rw [if_pos hkc]
  rw [show change_comment_score cfg 2
      = change_comment_score_core cfg (change_comment_score cfg 1) (change_post_score cfg 1)
      from rfl]
  simp only [change_comment_score_core, hkc, Bool.not_true, Bool.false_eq_true, if_false,
    putSA_posts, hkex, putSA_postScore, hrecK, hkroot, get_root_post, hpex,
    if_neg hko, hnest, get_or_new_putSA_same, ← hdval, hledK, haddK]
  refine ⟨rfl, rfl, ?_, ?_⟩
  · simp [finalState, post_score_in]
  · simp only [finalState, post_score_in, putPost_posts]
    rw [upd_ne _ _ _ _ (Ne.symm hkpid)]
    simp only [putPostScore_posts, putSA_posts, putRepDiff_posts, putSpace_posts,
      putPost_posts, upd_self]
    rfl

end Subsocial

namespace Subsocial

/-- C6 witness: actor 2 (reputation 1, CreateComment weight 3) creates
comment 9 under root post 7 (space 4): both stored scores grow by 3. -/
theorem c6_comment_propagation_witness :
    resultError (change_post_score_by_extension sampleCfg 2 comment9 .CreateComment c6_good_state)
      = none ∧
    resultPost (change_post_score_by_extension sampleCfg 2 comment9 .CreateComment c6_good_state)
      = some { comment9 with score := comment9.score + 3 } ∧
    post_score_in
      (finalState (change_post_score_by_extension sampleCfg 2 comment9 .CreateComment c6_good_state))
      comment9.id = some (comment9.score + 3) ∧
    post_score_in
      (finalState (change_post_score_by_extension sampleCfg 2 comment9 .CreateComment c6_good_state))
      rootWithSpace.id = some (rootWithSpace.score + 3) :=
  c6_comment_propagation sampleCfg c6_good_state 2 comment9 rootWithSpace 4 ⟨0⟩ 3
    (by decide) rfl rfl rfl rfl rfl rfl (by decide) (by decide) (by decide)
    rfl rfl rfl rfl (by decide) (by decide) (by decide) (by decide)
    (by decide) (by decide) (by decide) (by decide) (by decide) (by decide) (by decide)

end Subsocial
